import Mathlib

/-!
Verification of the request correlation and aggregation engine of the
network-analyzer devtools panel (`panel.js`).

The development shallowly embeds the panel's state (`requests` map,
`pendingResponseBodies` map, capture flag, filters, response-body search
state) and its event handlers as executable Lean functions, then proves or
refutes the specified properties about them.

JavaScript-specific conventions used throughout the embedding:
* an absent / `undefined` object property is `Option.none`;
* `x || d` on strings/numbers (falsy coalescing) is modelled by helpers
  `strOr` / `numOr` that also treat `""` / `0` as absent;
* `Map` iteration order is insertion order, modelled by association lists
  with `mapGet` / `mapSet` / `mapDelete`.
-/

namespace NetworkAnalyzer

/-! ## Generic string and list helpers (kernel-friendly, over `String.data`) -/

/-- Lowercase every character (model of `String.prototype.toLowerCase` for
the ASCII range the panel manipulates). -/
def lowerL (l : List Char) : List Char := l.map Char.toLower

/-- Uppercase every character (model of `String.prototype.toUpperCase`). -/
def upperL (l : List Char) : List Char := l.map Char.toUpper

def toLowerStr (s : String) : String := ⟨lowerL s.data⟩

def toUpperStr (s : String) : String := ⟨upperL s.data⟩

/-- `leadsList pat l` holds when `pat` occurs at the very start of `l`. -/
def leadsList : List Char → List Char → Bool
  | [], _ => true
  | _ :: _, [] => false
  | a :: as, b :: bs => a = b && leadsList as bs

/-- `containsL sub l` : does `sub` occur contiguously anywhere in `l`?
(model of `String.prototype.includes`). -/
def containsL (sub : List Char) : List Char → Bool
  | [] => leadsList sub []
  | l@(_ :: rest) => leadsList sub l || containsL sub rest

def containsStr (s sub : String) : Bool := containsL sub.data s.data

/-- Split on every occurrence of the two-character separator `::`
(model of `key.split('::')`, scanning left to right, non-overlapping). -/
def splitDC : List Char → List (List Char)
  | [] => [[]]
  | ':' :: ':' :: rest => [] :: splitDC rest
  | c :: rest =>
    match splitDC rest with
    | [] => [[c]]
    | h :: t => (c :: h) :: t

/-- JS whitespace test for the characters relevant to `String.prototype.trim`. -/
def isJsWS (c : Char) : Bool := c = ' ' || c = '\t' || c = '\n' || c = '\r'

/-- Model of `String.prototype.trim`. -/
def trimStr (s : String) : String :=
  ⟨((s.data.dropWhile isJsWS).reverse.dropWhile isJsWS).reverse⟩

/-- Model of JS falsy-coalescing `s || "GET"` on an optional string:
both an absent property and the empty string fall back. -/
def strOr (o : Option String) (d : String) : String :=
  match o with
  | some s => if s.data.isEmpty then d else s
  | none => d

/-- Model of JS falsy-coalescing `n || d` on an optional number:
both an absent property and `0` fall back. -/
def numOr (o : Option Int) (d : Int) : Int :=
  match o with
  | some n => if n = 0 then d else n
  | none => d

/-- Model of template-literal stringification of a possibly-`undefined`
value (an absent value prints as `"undefined"`). -/
def jsStr (o : Option String) : String :=
  match o with
  | some s => s
  | none => "undefined"

/-! ## Insertion-ordered map (model of a JS `Map`) -/

def mapGet {α : Type} (m : List (String × α)) (k : String) : Option α :=
  (m.find? (fun kv => kv.1 = k)).map (fun kv => kv.2)

/-- `Map.set`: updates in place if the key exists (keeping its position),
otherwise appends. -/
def mapSet {α : Type} (m : List (String × α)) (k : String) (v : α) :
    List (String × α) :=
  if m.any (fun kv => kv.1 = k) then
    m.map (fun kv => if kv.1 = k then (k, v) else kv)
  else m ++ [(k, v)]

def mapDelete {α : Type} (m : List (String × α)) (k : String) :
    List (String × α) :=
  m.filter (fun kv => kv.1 ≠ k)

/-- Apply `f` to the value of the first entry whose value satisfies `p`,
leaving everything else untouched (models the panel's
`for ... of map.entries()` loops that `break` after the first hit). -/
def updateFirst {α : Type} (m : List (String × α)) (p : α → Bool) (f : α → α) :
    List (String × α) :=
  match m with
  | [] => []
  | (k, r) :: rest =>
    if p r then (k, f r) :: rest else (k, r) :: updateFirst rest p f

/-! ## URL model

`panel.js` relies on the platform's `URL` constructor.  `parseUrl` models
that external API for `scheme://host...` URLs: it extracts origin,
pathname (defaulting to `/`), query string and fragment, and fails
(`none`, modelling the thrown `TypeError`) when the input has no
`://`, an empty or malformed scheme, or an empty / space-containing host.
Canonicalisations the panel never exercises (case folding of the host,
default-port stripping, percent-encoding) are not modelled. -/

structure URLParts where
  origin : String
  pathname : String
  search : String
  hash : String
  deriving DecidableEq, Repr

def isSchemeChar (c : Char) : Bool :=
  c.isAlpha || c.isDigit || c = '+' || c = '-' || c = '.'

/-- Split a character list at the first occurrence of `"://"`. -/
def splitScheme : List Char → Option (List Char × List Char)
  | [] => none
  | ':' :: '/' :: '/' :: rest => some ([], rest)
  | c :: rest =>
    match splitScheme rest with
    | some (a, b) => some (c :: a, b)
    | none => none

/-- Model of `new URL(url)` (external platform API): `none` models the
constructor throwing. -/
def parseUrl (url : String) : Option URLParts :=
  match splitScheme url.data with
  | none => none
  | some (schemeChars, rest) =>
    if schemeChars.isEmpty then none
    else if !(schemeChars.all isSchemeChar) then none
    else
      let host := rest.takeWhile (fun c => c ≠ '/' && c ≠ '?' && c ≠ '#')
      let rest2 := rest.drop host.length
      if host.isEmpty || host.contains ' ' then none
      else
        let pathPart := rest2.takeWhile (fun c => c ≠ '?' && c ≠ '#')
        let rest3 := rest2.drop pathPart.length
        let searchPart := rest3.takeWhile (fun c => c ≠ '#')
        let hashPart := rest3.drop searchPart.length
        some { origin := ⟨schemeChars⟩ ++ "://" ++ ⟨host⟩,
               pathname := if pathPart.isEmpty then "/" else ⟨pathPart⟩,
               search := ⟨searchPart⟩,
               hash := ⟨hashPart⟩ }

/-- Does the string end in `'/'`? (model of `path.endsWith('/')`). -/
def endsWithSlash (s : String) : Bool := s.data.getLast? = some '/'

/-- Drop the final character (model of `path.slice(0, -1)`). -/
def dropLast1 (s : String) : String := ⟨s.data.dropLast⟩

/-- `normalizeUrl` from `panel.js`: origin + pathname (one trailing slash
stripped unless the path is exactly `/`) + query string; the fragment is
dropped; a URL the platform cannot parse is returned unchanged. -/
def normalizeUrl (url : String) : String :=
  match parseUrl url with
  | some u =>
    let path :=
      if u.pathname ≠ "/" && endsWithSlash u.pathname then dropLast1 u.pathname
      else u.pathname
    u.origin ++ path ++ u.search
  | none => url

/-! ## Data model

A JS record object: every property is optional, mirroring the dynamic
objects that flow through the panel (`{ ...existing, ...data }` merges,
`hasOwnProperty` / `=== undefined` checks collapse to `Option`). -/

structure Header where
  name : String
  value : String
  deriving DecidableEq, Repr

/-- Request body payload shapes handled by `formatRequestBody`. -/
inductive ReqBody where
  | formData (fields : List (String × List String))
  | raw (bytes : List Nat)
  deriving DecidableEq, Repr

structure RecordObj where
  requestId : Option String := none
  url : Option String := none
  method : Option String := none
  type : Option String := none
  tabId : Option Int := none
  timeStamp : Option Int := none
  timestamp : Option Int := none
  statusCode : Option Int := none
  statusLine : Option String := none
  requestHeaders : Option (List Header) := none
  responseHeaders : Option (List Header) := none
  requestBody : Option ReqBody := none
  responseBody : Option String := none
  responseBodyMimeType : Option String := none
  responseBodyUnavailable : Option Bool := none
  completed : Option Bool := none
  error : Option Bool := none
  deriving DecidableEq, Repr

/-- The empty JS object `{}`. -/
def emptyRecord : RecordObj := {}

/-- Object spread `{ ...a, ...b }`: a property present on `b` overrides. -/
def mergeObj (a b : RecordObj) : RecordObj where
  requestId := b.requestId <|> a.requestId
  url := b.url <|> a.url
  method := b.method <|> a.method
  type := b.type <|> a.type
  tabId := b.tabId <|> a.tabId
  timeStamp := b.timeStamp <|> a.timeStamp
  timestamp := b.timestamp <|> a.timestamp
  statusCode := b.statusCode <|> a.statusCode
  statusLine := b.statusLine <|> a.statusLine
  requestHeaders := b.requestHeaders <|> a.requestHeaders
  responseHeaders := b.responseHeaders <|> a.responseHeaders
  requestBody := b.requestBody <|> a.requestBody
  responseBody := b.responseBody <|> a.responseBody
  responseBodyMimeType := b.responseBodyMimeType <|> a.responseBodyMimeType
  responseBodyUnavailable := b.responseBodyUnavailable <|> a.responseBodyUnavailable
  completed := b.completed <|> a.completed
  error := b.error <|> a.error

/-- An entry of `pendingResponseBodies` (the `harRequest` back-pointer the
code also stores is never read again and is omitted). -/
structure PendingBody where
  body : String
  mimeType : String
  timestamp : Int
  deriving DecidableEq, Repr

/-- The devtools content-channel event: one `onRequestFinished` HAR entry
together with the body its `getContent` callback delivered.
`body = none` models `getContent` passing `null`/`undefined`;
`capturedAt` models `Date.now()` at the time the callback runs. -/
structure HarEvent where
  url : String
  method : String
  status : Int
  mimeType : String
  time : Int
  body : Option String
  capturedAt : Int
  deriving DecidableEq, Repr

/-- The panel state acted on by the correlation engine (DOM/rendering
state aside). -/
structure AnalyzerState where
  requests : List (String × RecordObj) := []
  pendingResponseBodies : List (String × PendingBody) := []
  selectedRequestId : Option String := none
  isCapturing : Bool := true
  deriving DecidableEq, Repr

/-- Fresh panel state (constructor + `init`). -/
def initState : AnalyzerState := {}

/-! ## Correlator operations (from `panel.js`) -/

/-- `matchesRequest` from `panel.js`: same normalized URL, same
(upper-cased, GET-defaulted) method, and timestamps within the 10-second
tolerance window.  An absent `req.url` makes the URL comparison fail, as
in the source (`normalizeUrl(undefined)` yields a non-string). -/
def matchesRequest (req : RecordObj) (harUrl harMethod : String)
    (harTimeMs : Int) : Bool :=
  let webUrl := req.url.map normalizeUrl
  let webMethod := toUpperStr (strOr req.method "GET")
  webUrl = some harUrl && webMethod = harMethod &&
    (numOr req.timeStamp (numOr req.timestamp 0) - harTimeMs).natAbs < 10000

/-- The URL+method comparison of the unavailability scan (the body of the
`for` loop's condition in `storeResponseBodyUnavailable`, which compares
re-normalized URLs and upper-cased GET-defaulted methods but no
timestamps). -/
def urlMethodMatch (ev : HarEvent) (req : RecordObj) : Bool :=
  req.url.map normalizeUrl = some (normalizeUrl ev.url) &&
  toUpperStr (strOr req.method "GET")
    = toUpperStr (strOr (some ev.method) "GET")

/-- `storeResponseBodyUnavailable` from `panel.js`: scan the record map in
insertion order for the first record with the same normalized URL and
method; if that record's `responseBody` is still undefined, set
`responseBodyUnavailable = true`; in either case stop at the first
URL+method match. -/
def storeResponseBodyUnavailable (s : AnalyzerState) (ev : HarEvent) :
    AnalyzerState :=
  let requests' :=
    updateFirst s.requests (urlMethodMatch ev)
      (fun req =>
        if req.responseBody.isNone then
          { req with responseBodyUnavailable := some true }
        else req)
  { s with requests := requests' }

/-- `captureResponseBody` from `panel.js` (the `getContent` callback):
a missing body, or an empty-string body with status other than 204, is
routed to `storeResponseBodyUnavailable`; otherwise the first record
passing `matchesRequest` receives the body, and failing that the body is
parked in `pendingResponseBodies` under `normalizedUrl::METHOD`
(the two scheduled `tryMatchPendingResponse` retries are separate events
of the step relation below). -/
def captureResponseBody (s : AnalyzerState) (ev : HarEvent) : AnalyzerState :=
  match ev.body with
  | none => storeResponseBodyUnavailable s ev
  | some b =>
    if b.data.isEmpty && ev.status ≠ 204 then
      storeResponseBodyUnavailable s ev
    else
      let harUrl := normalizeUrl ev.url
      let harMethod := toUpperStr (strOr (some ev.method) "GET")
      let harTimeMs := ev.time * 1000
      if s.requests.any
          (fun kv => matchesRequest kv.2 harUrl harMethod harTimeMs) then
        let requests' :=
          updateFirst s.requests
            (fun req => matchesRequest req harUrl harMethod harTimeMs)
            (fun req =>
              { req with responseBody := some b,
                         responseBodyMimeType := some ev.mimeType })
        { s with requests := requests' }
      else
        let key := harUrl ++ "::" ++ harMethod
        let pend' :=
          mapSet s.pendingResponseBodies key ⟨b, ev.mimeType, ev.capturedAt⟩
        { s with pendingResponseBodies := pend' }

/-- URL and method a pending key denotes, as recomputed by
`tryMatchPendingResponse` / the scan loops: `key.split('::')`, part 0
re-normalized, part 1 upper-cased. -/
def pendingKeyUrl (k : String) : String :=
  normalizeUrl ⟨(splitDC k.data).headD []⟩

def pendingKeyMethod (k : String) : String :=
  toUpperStr ⟨((splitDC k.data).drop 1).headD []⟩

/-- `tryMatchPendingResponse` from `panel.js`: if the key still has a
pending entry, scan records in insertion order for the first one with the
key's URL and method; give it the pending body if (and only if) it has
none yet, delete the pending entry either way, and stop. -/
def tryMatchPendingResponse (s : AnalyzerState) (key : String) :
    AnalyzerState :=
  match mapGet s.pendingResponseBodies key with
  | none => s
  | some pending =>
    let nUrl := pendingKeyUrl key
    let nMethod := pendingKeyMethod key
    let p := fun (req : RecordObj) =>
      req.url.map normalizeUrl = some nUrl &&
      toUpperStr (strOr req.method "GET") = nMethod
    if s.requests.any (fun kv => p kv.2) then
      { s with
        requests :=
          updateFirst s.requests p
            (fun req =>
              if req.responseBody.isNone then
                { req with responseBody := some pending.body,
                           responseBodyMimeType := some pending.mimeType }
              else req),
        pendingResponseBodies := mapDelete s.pendingResponseBodies key }
    else s

/-- The pending-buffer lookup shared verbatim by `addRequest` and
`completeRequest`: first a direct `get` on `normalizedUrl::METHOD`, then a
scan of all pending entries comparing re-normalized key parts; the hit (if
any) is removed from the buffer.  `nUrlO` is the possibly-`undefined`
normalized URL of the incoming payload. -/
def consumePending (pend : List (String × PendingBody))
    (nUrlO : Option String) (nMethod : String) :
    Option PendingBody × List (String × PendingBody) :=
  let simpleKey := jsStr nUrlO ++ "::" ++ nMethod
  match mapGet pend simpleKey with
  | some p => (some p, mapDelete pend simpleKey)
  | none =>
    match pend.find? (fun kv =>
        nUrlO = some (pendingKeyUrl kv.1) &&
        nMethod = pendingKeyMethod kv.1) with
    | some (k, p) => (some p, mapDelete pend k)
    | none => (none, pend)

/-- `addRequest` from `panel.js` (NETWORK_REQUEST handler): a duplicate
`requestId` is a no-op; otherwise build the record from the payload with
`timestamp := data.timeStamp || Date.now()`, consume a matching
pending-content entry into `responseBody` / `responseBodyMimeType` if one
exists, and insert.  `rid` is `data.requestId`; `now` models
`Date.now()`. -/
def addRequest (s : AnalyzerState) (rid : String) (data : RecordObj)
    (now : Int) : AnalyzerState :=
  if (mapGet s.requests rid).isSome then s
  else
    let request0 := { data with timestamp := some (numOr data.timeStamp now) }
    let nUrlO := data.url.map normalizeUrl
    let nMethod := toUpperStr (strOr data.method "GET")
    let found := consumePending s.pendingResponseBodies nUrlO nMethod
    let request :=
      match found.1 with
      | some p =>
        { request0 with responseBody := some p.body,
                        responseBodyMimeType := some p.mimeType }
      | none => request0
    { s with requests := mapSet s.requests rid request,
             pendingResponseBodies := found.2 }

/-- `updateRequest` from `panel.js` (NETWORK_REQUEST_UPDATE handler):
merge-patch an existing record; an unknown `requestId` changes nothing. -/
def updateRequest (s : AnalyzerState) (rid : String) (data : RecordObj) :
    AnalyzerState :=
  match mapGet s.requests rid with
  | none => s
  | some existing =>
    { s with requests := mapSet s.requests rid (mergeObj existing data) }

/-- `completeRequest` from `panel.js` (NETWORK_REQUEST_COMPLETE handler):
merge the payload over the existing record — or over `{}` when the id is
unknown — set `completed := true`, and if the result still has no
`responseBody`, consume a matching pending-content entry. -/
def completeRequest (s : AnalyzerState) (rid : String) (data : RecordObj) :
    AnalyzerState :=
  let existing := (mapGet s.requests rid).getD emptyRecord
  let updated0 := { mergeObj existing data with completed := some true }
  if updated0.responseBody.isSome then
    { s with requests := mapSet s.requests rid updated0 }
  else
    let nUrlO := data.url.map normalizeUrl
    let nMethod := toUpperStr (strOr data.method "GET")
    let found := consumePending s.pendingResponseBodies nUrlO nMethod
    let updated :=
      match found.1 with
      | some p =>
        { updated0 with responseBody := some p.body,
                        responseBodyMimeType := some p.mimeType }
      | none => updated0
    { s with requests := mapSet s.requests rid updated,
             pendingResponseBodies := found.2 }

/-- The clear-button handler (`setupUI`): `requests.clear()`,
`selectedRequestId = null`, close the detail panel.  It does not touch
`pendingResponseBodies`. -/
def clearAll (s : AnalyzerState) : AnalyzerState :=
  { s with requests := [], selectedRequestId := none }

/-- `toggleCapture` from `panel.js`. -/
def toggleCapture (s : AnalyzerState) : AnalyzerState :=
  { s with isCapturing := !s.isCapturing }

/-! ## Event-level step relation

One inbound event of the panel's single logical thread.  The three
metadata messages pass through the `port.onMessage` listener, which drops
them when `isCapturing` is false; the content channel
(`chrome.devtools.network.onRequestFinished` → `captureResponseBody`) and
the scheduled retries are registered outside that listener and are not
gated. -/
inductive Event where
  | netRequest (rid : String) (data : RecordObj) (now : Int)
  | netUpdate (rid : String) (data : RecordObj)
  | netComplete (rid : String) (data : RecordObj)
  | content (ev : HarEvent)
  | retry (key : String)
  | clearClick
  | toggleCaptureClick
  deriving Repr

def step (s : AnalyzerState) : Event → AnalyzerState
  | .netRequest rid data now =>
    if s.isCapturing then addRequest s rid data now else s
  | .netUpdate rid data =>
    if s.isCapturing then updateRequest s rid data else s
  | .netComplete rid data =>
    if s.isCapturing then completeRequest s rid data else s
  | .content ev => captureResponseBody s ev
  | .retry key => tryMatchPendingResponse s key
  | .clearClick => clearAll s
  | .toggleCaptureClick => toggleCapture s

def runEvents (s : AnalyzerState) (es : List Event) : AnalyzerState :=
  es.foldl step s

/-! ## Filter / search evaluator (`getFilteredRequests`) -/

structure Filters where
  search : String := ""
  method : String := ""
  status : String := ""
  type : String := ""
  url : String := ""
  deriving DecidableEq, Repr

def quoteCh : Char := '"'

/-- Escape `\` and `"` inside a JSON string (model of the part of
`JSON.stringify`'s escaping the panel's header values exercise). -/
def jsonEscape (s : String) : String :=
  ⟨s.data.foldr
    (fun c acc =>
      if c = '\\' then '\\' :: '\\' :: acc
      else if c = quoteCh then '\\' :: quoteCh :: acc
      else c :: acc) []⟩

def jsonStr (s : String) : String :=
  String.singleton quoteCh ++ jsonEscape s ++ String.singleton quoteCh

/-- Model of `JSON.stringify(headers || [])` on a header array. -/
def jsonStringifyHeaders (hs : Option (List Header)) : String :=
  match hs with
  | none => "[]"
  | some l =>
    "[" ++
      String.intercalate ","
        (l.map (fun h =>
          "\x7b" ++ jsonStr "name" ++ ":" ++ jsonStr h.name ++ "," ++
          jsonStr "value" ++ ":" ++ jsonStr h.value ++ "\x7d")) ++
    "]"

/-- Model of `JSON.stringify` of a string-to-string-list object (form
data); the exact pretty-printing whitespace of the source's
`JSON.stringify(x, null, 2)` is not reproduced. -/
def jsonStringifyFormData (fields : List (String × List String)) : String :=
  "\x7b" ++
    String.intercalate ","
      (fields.map (fun f =>
        jsonStr f.1 ++ ":[" ++
          String.intercalate "," (f.2.map jsonStr) ++ "]")) ++
  "\x7d"

/-- Model of `TextDecoder('utf-8').decode` on the first raw chunk,
restricted to the byte-per-character range. -/
def decodeBytes (bytes : List Nat) : String :=
  ⟨bytes.map (fun b => Char.ofNat (b % 256))⟩

/-- `formatRequestBody` from `panel.js`, as invoked by the search filter
with `req.requestBody || {}`: an absent body becomes the empty object and
stringifies to `"{}"`; form data and raw bytes are rendered as in the
source. -/
def formatRequestBody (b : Option ReqBody) : String :=
  match b with
  | none => "\x7b\x7d"
  | some (.formData fields) => jsonStringifyFormData fields
  | some (.raw bytes) => decodeBytes bytes

/-- The synthesized searchable blob of `getFilteredRequests`:
`[url, stringify(requestHeaders||[]), stringify(responseHeaders||[]),
formatRequestBody(requestBody||{}), responseBody||''].join(' ')`
(`Array.join` renders an absent element as the empty string). -/
def searchableBlob (req : RecordObj) : String :=
  String.intercalate " "
    [req.url.getD "",
     jsonStringifyHeaders req.requestHeaders,
     jsonStringifyHeaders req.responseHeaders,
     formatRequestBody req.requestBody,
     req.responseBody.getD ""]

/-- A compiled regular expression is abstracted as a test on strings; a
regex engine is a partial compiler `String → Option (String → Bool)`,
`none` modelling `new RegExp(pattern, 'i')` throwing `SyntaxError`. -/
def RegexEngine : Type := String → Option (String → Bool)

/-- The per-record predicate of `getFilteredRequests`: method equality,
status bucket by the first character of the status filter, type equality,
case-insensitive URL substring, then the free-text search — regex when the
pattern compiles, case-insensitive literal substring over the same blob
when it does not.  (In the source an absent `req.url` under a non-empty
URL filter would throw; records built by the correlator always carry a
URL, and the model reads it as `""`.) -/
def matchesFilters (rx : RegexEngine) (f : Filters) (req : RecordObj) :
    Bool :=
  if !f.method.data.isEmpty && req.method ≠ some f.method then false
  else if !f.status.data.isEmpty &&
      (let status := numOr req.statusCode 0
       let range := f.status.data.headD ' '
       (range = '2' && (status < 200 || status ≥ 300)) ||
       (range = '3' && (status < 300 || status ≥ 400)) ||
       (range = '4' && (status < 400 || status ≥ 500)) ||
       (range = '5' && status < 500)) then false
  else if !f.type.data.isEmpty && req.type ≠ some f.type then false
  else if !f.url.data.isEmpty &&
      !containsStr (toLowerStr (req.url.getD "")) (toLowerStr f.url) then
    false
  else if !f.search.data.isEmpty then
    match rx f.search with
    | some test => test (searchableBlob req)
    | none =>
      containsStr (toLowerStr (searchableBlob req)) (toLowerStr f.search)
  else true

/-- The timestamp key of the result sort (`b.timestamp || 0`). -/
def tsOf (req : RecordObj) : Int := numOr req.timestamp 0

/-- Stable insertion into a descending-timestamp list: a record goes in
front only of strictly older records, so equal timestamps keep their
original relative order (JS `Array.prototype.sort` is stable). -/
def insertByTs (r : RecordObj) : List RecordObj → List RecordObj
  | [] => [r]
  | x :: xs => if tsOf r > tsOf x then r :: x :: xs else x :: insertByTs r xs

def sortByTsDesc : List RecordObj → List RecordObj
  | [] => []
  | x :: xs => insertByTs x (sortByTsDesc xs)

/-- `getFilteredRequests` from `panel.js`: filter the records (in
insertion order) through `matchesFilters`, then sort by descending
timestamp. -/
def getFilteredRequests (rx : RegexEngine) (s : AnalyzerState)
    (f : Filters) : List RecordObj :=
  sortByTsDesc ((s.requests.map (fun kv => kv.2)).filter (matchesFilters rx f))

/-- The leading decimal digit of a status code (used only to state the
specified bucket property, not by the code). -/
def leadingDigit (n : Nat) : Nat :=
  if h : n < 10 then n else leadingDigit (n / 10)
  decreasing_by
    exact Nat.div_lt_self (Nat.pos_of_ne_zero (by omega)) (by omega)

/-! ## Response-body search (`performResponseSearch` and navigation) -/

/-- One match of the in-response search: `{ index, length, text }`. -/
structure MatchSpan where
  index : Nat
  length : Nat
  text : String
  deriving DecidableEq, Repr

/-- The `regex.exec` loop of `performResponseSearch` on the escaped
search term with flags `gi`: case-insensitive literal occurrences, found
left to right and non-overlapping (`lastIndex` jumps past each match).
`fuel` bounds the scan by the text length. -/
def findOccAux (term : List Char) : Nat → List Char → Nat → List MatchSpan
  | 0, _, _ => []
  | _ + 1, [], _ => []
  | fuel + 1, text@(_ :: rest), pos =>
    if leadsList (lowerL term) (lowerL text) then
      ⟨pos, term.length, ⟨text.take term.length⟩⟩ ::
        findOccAux term fuel (text.drop term.length) (pos + term.length)
    else
      findOccAux term fuel rest (pos + 1)

/-- All case-insensitive literal occurrences of `term` in `text`, in
order.  (The source never runs the loop on an empty term: a term that
trims to nothing takes the clear path of `performResponseSearch`.) -/
def findMatchesCI (term text : String) : List MatchSpan :=
  if term.data.isEmpty then []
  else findOccAux term.data (text.data.length + 1) text.data 0

/-- The search state of the response-body search
(`this.responseSearchState`; the `originalText` is fixed when the
response tab renders). -/
structure ResponseSearchState where
  searchTerm : String := ""
  matchList : List MatchSpan := []
  currentMatchIndex : Int := -1
  originalText : String := ""
  deriving DecidableEq, Repr

/-- `performResponseSearch` from `panel.js`: record the term and reset the
pointer; a term that trims to nothing clears the match list; otherwise
recompute the matches over `originalText` and, when any exist, navigate to
match 0. -/
def performResponseSearch (st : ResponseSearchState) (term : String) :
    ResponseSearchState :=
  let st1 := { st with searchTerm := term, currentMatchIndex := -1 }
  if (trimStr term).data.isEmpty then
    { st1 with matchList := [] }
  else
    let ms := findMatchesCI term st.originalText
    let st2 := { st1 with matchList := ms }
    if ms.length > 0 then { st2 with currentMatchIndex := 0 } else st2

/-- `navigateToNextMatch`: advance the pointer cyclically
(`(i + 1) % matches.length`); a no-op when there are no matches. -/
def navigateToNextMatch (st : ResponseSearchState) : ResponseSearchState :=
  if st.matchList.length = 0 then st
  else
    { st with currentMatchIndex :=
        (st.currentMatchIndex + 1) % (st.matchList.length : Int) }

/-- `navigateToPreviousMatch`: step the pointer back, wrapping from the
first (or unset) position to the last; a no-op when there are no
matches. -/
def navigateToPreviousMatch (st : ResponseSearchState) :
    ResponseSearchState :=
  if st.matchList.length = 0 then st
  else
    { st with currentMatchIndex :=
        if st.currentMatchIndex ≤ 0 then (st.matchList.length : Int) - 1
        else st.currentMatchIndex - 1 }

/-! ## Basic lemmas about the map and record helpers -/

theorem orElseNone {α : Type} (o : Option α) : (o <|> none) = o := by
  cases o <;> rfl

theorem mergeObj_emptyRecord (d : RecordObj) : mergeObj emptyRecord d = d := by
  cases d
  simp only [mergeObj, emptyRecord, orElseNone]

theorem mapGet_mapSet_self {α : Type} (m : List (String × α)) (k : String)
    (v : α) : mapGet (mapSet m k v) k = some v := by
  induction m with
  | nil => simp [mapGet, mapSet]
  | cons a m ih =>
    by_cases hk : a.1 = k
    · simp [mapSet, mapGet, hk, List.find?]
    · by_cases hm : m.any (fun kv => kv.1 = k)
      · simpa [mapSet, mapGet, hk, hm, List.find?] using ih
      · simpa [mapSet, mapGet, hk, hm, List.find?] using ih

theorem mapGet_mapDelete_self {α : Type} (m : List (String × α))
    (k : String) : mapGet (mapDelete m k) k = none := by
  induction m with
  | nil => rfl
  | cons a m ih =>
    by_cases hk : a.1 = k
    · simpa [mapDelete, mapGet, hk] using ih
    · simpa [mapDelete, mapGet, hk, List.find?] using ih

theorem updateFirst_mem {α : Type} (m : List (String × α)) (p : α → Bool)
    (f : α → α) (k : String) (v : α) (h : (k, v) ∈ updateFirst m p f) :
    (k, v) ∈ m ∨ ∃ r, (k, r) ∈ m ∧ p r = true ∧ v = f r := by
  induction m with
  | nil => simp [updateFirst] at h
  | cons a m ih =>
    obtain ⟨ka, ra⟩ := a
    by_cases hp : p ra
    · simp only [updateFirst, hp, if_pos, List.mem_cons] at h
      rcases h with h | h
      · obtain ⟨hk, hv⟩ := Prod.mk.injEq .. ▸ h
        subst hk
        exact Or.inr ⟨ra, List.mem_cons_self _ _, hp, hv⟩
      · left
        exact List.mem_cons_of_mem _ h
    · simp only [updateFirst, hp, if_neg, Bool.false_eq_true,
        not_false_iff, List.mem_cons] at h
      rcases h with h | h
      · left
        simp [h]
      · rcases ih h with h' | ⟨r, hr, hpr, hv⟩
        · exact Or.inl (List.mem_cons_of_mem _ h')
        · exact Or.inr ⟨r, List.mem_cons_of_mem _ hr, hpr, hv⟩

/-! ## Shared concrete data for witnesses and counterexamples -/

/-- A regex engine on which every pattern fails to compile (used to
exercise the substring fallback; the panel's engine fails exactly on
syntactically invalid patterns such as `[`). -/
def rxFailAll : RegexEngine := fun _ => none

/-- A regex engine that compiles every pattern to a test that always
succeeds. -/
def rxAcceptAll : RegexEngine := fun _ => some (fun _ => true)

/-- A metadata `requestStarted` payload for `https://a.com/x`. -/
def dataX : RecordObj :=
  { requestId := some "1", url := some "https://a.com/x",
    method := some "GET", timeStamp := some 1000 }

/-- A content event for `https://a.com/x` whose body is unavailable. -/
def evUnavailX : HarEvent :=
  { url := "https://a.com/x", method := "GET", status := 200,
    mimeType := "", time := 1, body := none, capturedAt := 1100 }

/-- A content event for `https://a.com/x` carrying body `"hello"`. -/
def evAvailX : HarEvent :=
  { url := "https://a.com/x", method := "GET", status := 200,
    mimeType := "text/plain", time := 1, body := some "hello",
    capturedAt := 1200 }

/-- A content event for `https://b.com/y` carrying body `"data1"`. -/
def evParkY : HarEvent :=
  { url := "https://b.com/y", method := "GET", status := 200,
    mimeType := "application/json", time := 2, body := some "data1",
    capturedAt := 50 }

/-! ## C9 — absent-id asymmetry of completion vs. header updates -/

/-- C9: for an id absent from the Record Store, `completeRequest` creates
a brand-new record that is exactly the completion payload with
`completed = true` — except that a matching pending body may additionally
be attached — while `updateRequest` leaves the state completely
unchanged. -/
theorem completeRequest_creates_updateRequest_noop
    (s : AnalyzerState) (rid : String) (data : RecordObj)
    (hid : mapGet s.requests rid = none) :
    updateRequest s rid data = s ∧
    ∃ r, mapGet (completeRequest s rid data).requests rid = some r ∧
      (r = { data with completed := some true } ∨
       ∃ p, (consumePending s.pendingResponseBodies
                (data.url.map normalizeUrl)
                (toUpperStr (strOr data.method "GET"))).1 = some p ∧
         r = { data with completed := some true,
                         responseBody := some p.body,
                         responseBodyMimeType := some p.mimeType }) := by
  constructor
  · unfold updateRequest
    rw [hid]
  · unfold completeRequest
    rw [hid]
    simp only [Option.getD_none, Option.getD_some, mergeObj_emptyRecord]
    by_cases hrb :
        (RecordObj.responseBody { data with completed := some true }).isSome
    · refine ⟨{ data with completed := some true }, ?_, Or.inl rfl⟩
      simp only [hrb, if_pos]
      exact mapGet_mapSet_self _ _ _
    · simp only [hrb, Bool.false_eq_true, if_neg, not_false_iff]
      rcases hcp : (consumePending s.pendingResponseBodies
          (data.url.map normalizeUrl)
          (toUpperStr (strOr data.method "GET"))).1 with _ | p
      · refine ⟨{ data with completed := some true }, ?_, Or.inl rfl⟩
        exact mapGet_mapSet_self _ _ _
      · refine ⟨{ data with completed := some true, responseBody := some p.body, responseBodyMimeType := some p.mimeType }, ?_, Or.inr ⟨p, rfl, rfl⟩⟩
        exact mapGet_mapSet_self _ _ _

/-- C9 witness: on the empty store, completing id `"9"` with the
`dataX` payload creates the record, and a header update for `"9"` is a
no-op. -/
theorem completeRequest_creates_updateRequest_noop_witness :
    mapGet initState.requests "9" = none ∧
    (updateRequest initState "9" dataX = initState ∧
     ∃ r, mapGet (completeRequest initState "9" dataX).requests "9" = some r ∧
      (r = { dataX with completed := some true } ∨
       ∃ p, (consumePending initState.pendingResponseBodies
                (dataX.url.map normalizeUrl)
                (toUpperStr (strOr dataX.method "GET"))).1 = some p ∧
         r = { dataX with completed := some true,
                          responseBody := some p.body,
                          responseBodyMimeType := some p.mimeType })) :=
  ⟨by decide,
   completeRequest_creates_updateRequest_noop initState "9" dataX (by decide)⟩

/-! ## C2 — what the clear button actually drops -/

/-- C2 counterexample: park one content body (no record matches on the
empty store), then press clear; the Pending-Content Buffer still holds the
entry, contradicting the claim that clearing empties both stores. -/
theorem clear_leaves_pending_buffer :
    (runEvents initState [.content evParkY, .clearClick]).requests = [] ∧
    (runEvents initState
        [.content evParkY, .clearClick]).pendingResponseBodies =
      [("https://b.com/y::GET",
        { body := "data1", mimeType := "application/json",
          timestamp := 50 })] := by
  constructor
  · rfl
  · rfl

/-- C2 amended: the clear button empties the Record Store and invalidates
the selection, but leaves the Pending-Content Buffer untouched; a
subsequent `contentAvailable` (necessarily unmatched, the store now being
empty) overwrites the stale entry for its key with the fresh content. -/
theorem clear_drops_records_and_selection_only
    (s : AnalyzerState) (ev : HarEvent) (b : String)
    (hb : ev.body = some b)
    (hok : b.data.isEmpty = false ∨ ev.status = 204) :
    (step s .clearClick).requests = [] ∧
    (step s .clearClick).selectedRequestId = none ∧
    (step s .clearClick).pendingResponseBodies = s.pendingResponseBodies ∧
    mapGet (step (step s .clearClick) (.content ev)).pendingResponseBodies
        (normalizeUrl ev.url ++ "::" ++ toUpperStr (strOr (some ev.method) "GET"))
      = some ⟨b, ev.mimeType, ev.capturedAt⟩ := by
  refine ⟨rfl, rfl, rfl, ?_⟩
  show mapGet (captureResponseBody (clearAll s) ev).pendingResponseBodies _ = _
  unfold captureResponseBody
  rw [hb]
  have hcond : (b.data.isEmpty && !(decide (ev.status = 204))) = false := by
    rcases hok with h | h <;> simp [h]
  simp only [ne_eq, decide_not, hcond, Bool.false_eq_true, if_neg,
    not_false_iff]
  have hany : ((clearAll s).requests.any fun kv =>
      matchesRequest kv.2 (normalizeUrl ev.url)
        (toUpperStr (strOr (some ev.method) "GET")) (ev.time * 1000)) = false := by
    rfl
  rw [hany]
  simp only [Bool.false_eq_true, if_neg, not_false_iff]
  exact mapGet_mapSet_self _ _ _

/-- C2 amended witness: instantiated on the parked-then-cleared store and
the `evParkY` content event. -/
theorem clear_drops_records_and_selection_only_witness :
    evParkY.body = some "data1" ∧
    ("data1".data.isEmpty = false ∨ evParkY.status = 204) ∧
    ((step (runEvents initState [.content evParkY]) .clearClick).requests = [] ∧
     (step (runEvents initState [.content evParkY]) .clearClick).selectedRequestId = none ∧
     (step (runEvents initState [.content evParkY]) .clearClick).pendingResponseBodies =
       (runEvents initState [.content evParkY]).pendingResponseBodies ∧
     mapGet (step (step (runEvents initState [.content evParkY]) .clearClick)
          (.content evParkY)).pendingResponseBodies
        (normalizeUrl evParkY.url ++ "::" ++
          toUpperStr (strOr (some evParkY.method) "GET"))
      = some ⟨"data1", evParkY.mimeType, evParkY.capturedAt⟩) :=
  ⟨rfl, Or.inl rfl,
   clear_drops_records_and_selection_only
     (runEvents initState [.content evParkY]) evParkY "data1" rfl
     (Or.inl rfl)⟩

/-! ## C3 — what the capture flag actually gates -/

/-- The content-channel handler never reads the capture flag: changing
`isCapturing` changes nothing about how a content event is processed. -/
theorem captureResponseBody_ignores_flag (s : AnalyzerState) (b : Bool)
    (ev : HarEvent) :
    captureResponseBody { s with isCapturing := b } ev =
      { captureResponseBody s ev with isCapturing := b } := by
  rcases s with ⟨R, P, sel, c⟩
  unfold captureResponseBody storeResponseBodyUnavailable
  rcases hb : ev.body with _ | bd
  · rfl
  · dsimp only
    split_ifs <;> rfl

/-- C3 counterexample: with capturing off, a content event from the
content capture channel still mutates the Pending-Content Buffer. -/
theorem content_event_mutates_while_capture_off :
    ({ initState with isCapturing := false } : AnalyzerState).isCapturing
        = false ∧
    ({ initState with
        isCapturing := false } : AnalyzerState).pendingResponseBodies = [] ∧
    (step { initState with isCapturing := false }
        (.content evParkY)).pendingResponseBodies ≠ [] := by
  refine ⟨rfl, rfl, ?_⟩
  decide

/-- C3 amended: while the capture flag is off every metadata event
(request start, header update, completion) is suppressed, and toggling
the flag leaves both stores unchanged; content-channel events, however,
are processed identically whatever the flag's value — the flag gates only
the metadata channel. -/
theorem capture_flag_gates_only_metadata
    (s : AnalyzerState) (rid : String) (data : RecordObj) (now : Int)
    (ev : HarEvent) (b : Bool)
    (hoff : s.isCapturing = false) :
    step s (.netRequest rid data now) = s ∧
    step s (.netUpdate rid data) = s ∧
    step s (.netComplete rid data) = s ∧
    (captureResponseBody { s with isCapturing := b } ev).requests
        = (captureResponseBody s ev).requests ∧
    (captureResponseBody { s with isCapturing := b } ev).pendingResponseBodies
        = (captureResponseBody s ev).pendingResponseBodies ∧
    (step s .toggleCaptureClick).requests = s.requests ∧
    (step s .toggleCaptureClick).pendingResponseBodies
        = s.pendingResponseBodies := by
  refine ⟨?_, ?_, ?_, ?_, ?_, rfl, rfl⟩
  · simp [step, hoff]
  · simp [step, hoff]
  · simp [step, hoff]
  · rw [captureResponseBody_ignores_flag]
  · rw [captureResponseBody_ignores_flag]

/-- C3 amended witness: instantiated at the capture-off initial state and
the `evParkY` content event. -/
theorem capture_flag_gates_only_metadata_witness :
    ({ initState with isCapturing := false } : AnalyzerState).isCapturing
        = false ∧
    (step { initState with isCapturing := false }
        (.netRequest "1" dataX 1000) =
      { initState with isCapturing := false } ∧
     step { initState with isCapturing := false } (.netUpdate "1" dataX) =
      { initState with isCapturing := false } ∧
     step { initState with isCapturing := false } (.netComplete "1" dataX) =
      { initState with isCapturing := false } ∧
     (captureResponseBody
        { ({ initState with isCapturing := false } : AnalyzerState) with
          isCapturing := true } evParkY).requests
        = (captureResponseBody { initState with isCapturing := false }
            evParkY).requests ∧
     (captureResponseBody
        { ({ initState with isCapturing := false } : AnalyzerState) with
          isCapturing := true } evParkY).pendingResponseBodies
        = (captureResponseBody { initState with isCapturing := false }
            evParkY).pendingResponseBodies ∧
     (step { initState with isCapturing := false }
        .toggleCaptureClick).requests
        = ({ initState with isCapturing := false } : AnalyzerState).requests ∧
     (step { initState with isCapturing := false }
        .toggleCaptureClick).pendingResponseBodies
        = ({ initState with
             isCapturing := false } : AnalyzerState).pendingResponseBodies) :=
  ⟨rfl,
   capture_flag_gates_only_metadata { initState with isCapturing := false }
     "1" dataX 1000 evParkY true rfl⟩

/-! ## C1 — `responseBody` vs. `responseBodyUnavailable` -/

/-- C1 counterexample: `requestStarted`, then `contentUnavailable`, then
`contentAvailable` for the same URL and method leaves the record with
`responseBody = "hello"` and `responseBodyUnavailable = true`
simultaneously — the claimed mutual exclusion does not hold on reachable
states. -/
theorem record_with_body_and_unavailable_flag :
    (runEvents initState
        [.netRequest "1" dataX 1000, .content evUnavailX,
         .content evAvailX]).requests.map
      (fun kv => (kv.2.responseBody, kv.2.responseBodyUnavailable))
    = [(some "hello", some true)] := by
  decide

/-- C1 amended: the unavailability handler sets
`responseBodyUnavailable = true` only on a record whose `responseBody` is
unset at that moment (so the two are exclusive when the flag is first
set), but a later `contentAvailable` sets `responseBody` without clearing
the flag; in particular, after `contentUnavailable` followed by
`contentAvailable` for the same key, the record does carry the body
(success overwrites unavailability for the body field, flag aside). -/
theorem unavailable_flag_set_only_on_unknown_body
    (s : AnalyzerState) (ev : HarEvent) (k : String) (r' : RecordObj)
    (hmem : (k, r') ∈ (storeResponseBodyUnavailable s ev).requests)
    (hflag : r'.responseBodyUnavailable = some true) :
    (∃ r, (k, r) ∈ s.requests ∧
       (r.responseBodyUnavailable = some true ∨ r.responseBody = none)) ∧
    (mapGet (runEvents initState
        [.netRequest "1" dataX 1000, .content evUnavailX,
         .content evAvailX]).requests "1").map
      (fun r => r.responseBody) = some (some "hello") := by
  constructor
  · simp only [storeResponseBodyUnavailable] at hmem
    rcases updateFirst_mem _ _ _ _ _ hmem with h | ⟨r, hr, _, hv⟩
    · exact ⟨r', h, Or.inl hflag⟩
    · by_cases hrb : r.responseBody.isNone
      · exact ⟨r, hr, Or.inr (Option.isNone_iff_eq_none.mp hrb)⟩
      · refine ⟨r, hr, Or.inl ?_⟩
        rw [hv] at hflag
        simp only [hrb, Bool.false_eq_true, if_neg, not_false_iff] at hflag
        exact hflag
  · decide

/-- The state holding exactly the record created from `dataX`. -/
def stateX : AnalyzerState := addRequest initState "1" dataX 1000

/-- The record of `stateX` after the unavailability handler flagged it. -/
def recordXFlagged : RecordObj :=
  { dataX with timestamp := some 1000, responseBodyUnavailable := some true }

/-- C1 amended witness: instantiated at `stateX` and the unavailability
event `evUnavailX`. -/
theorem unavailable_flag_set_only_on_unknown_body_witness :
    ("1", recordXFlagged) ∈
        (storeResponseBodyUnavailable stateX evUnavailX).requests ∧
    recordXFlagged.responseBodyUnavailable = some true ∧
    ((∃ r, ("1", r) ∈ stateX.requests ∧
        (r.responseBodyUnavailable = some true ∨ r.responseBody = none)) ∧
     (mapGet (runEvents initState
        [.netRequest "1" dataX 1000, .content evUnavailX,
         .content evAvailX]).requests "1").map
      (fun r => r.responseBody) = some (some "hello")) :=
  ⟨by decide, rfl,
   unavailable_flag_set_only_on_unknown_body stateX evUnavailX "1"
     recordXFlagged (by decide) rfl⟩

/-! ## C10 — classification of empty-body content events -/

theorem updateFirst_not_found {α : Type} (m : List (String × α))
    (p : α → Bool) (f : α → α) (h : ∀ kv ∈ m, p kv.2 = false) :
    updateFirst m p f = m := by
  induction m with
  | nil => rfl
  | cons a m ih =>
    obtain ⟨ka, ra⟩ := a
    have ha := h (ka, ra) (List.mem_cons_self _ _)
    simp only at ha
    simp only [updateFirst, ha, Bool.false_eq_true, if_neg, not_false_iff,
      List.cons.injEq, true_and]
    exact ih (fun kv hkv => h kv (List.mem_cons_of_mem _ hkv))

theorem updateFirst_found {α : Type} (pre post : List (String × α))
    (k : String) (r : α) (p : α → Bool) (f : α → α)
    (hpre : ∀ kv ∈ pre, p kv.2 = false) (hr : p r = true) :
    updateFirst (pre ++ (k, r) :: post) p f = pre ++ (k, f r) :: post := by
  induction pre with
  | nil => simp [updateFirst, hr]
  | cons a pre ih =>
    obtain ⟨ka, ra⟩ := a
    have ha := hpre (ka, ra) (List.mem_cons_self _ _)
    simp only at ha
    simp only [List.cons_append, updateFirst, ha, Bool.false_eq_true,
      if_neg, not_false_iff, List.cons.injEq, true_and]
    exact ih (fun kv hkv => hpre kv (List.mem_cons_of_mem _ hkv))

/-- A record for `https://a.com/z` that already carries a body. -/
def recBodied : RecordObj :=
  { url := some "https://a.com/z", method := some "GET",
    responseBody := some "cached", timestamp := some 1 }

/-- A record for `https://a.com/z` whose body is still unknown. -/
def recUnknown : RecordObj :=
  { url := some "https://a.com/z", method := some "GET",
    timestamp := some 2 }

/-- A store holding `recBodied` before `recUnknown`. -/
def stateZ : AnalyzerState :=
  { requests := [("1", recBodied), ("2", recUnknown)] }

/-- An empty-body content event for `https://a.com/z` with status 500. -/
def evEmptyZ : HarEvent :=
  { url := "https://a.com/z", method := "GET", status := 500,
    mimeType := "", time := 3, body := some "", capturedAt := 10 }

/-- C10 counterexample: both records match the empty-body (status 500)
event's URL and method, the second is the first match whose body is
unknown, yet no record at all receives `responseBodyUnavailable`: the
scan stops at the first URL+method match (which already has a body)
instead of the first match with unknown body. -/
theorem empty_body_event_skips_later_unknown_record :
    urlMethodMatch evEmptyZ recBodied = true ∧
    urlMethodMatch evEmptyZ recUnknown = true ∧
    recBodied.responseBody.isSome = true ∧
    recUnknown.responseBody = none ∧
    (captureResponseBody stateZ evEmptyZ).requests.map
      (fun kv => kv.2.responseBodyUnavailable) = [none, none] := by
  refine ⟨by decide, by decide, rfl, rfl, ?_⟩
  decide

/-- C10 amended: an empty-string body with status other than 204 is
routed to the unavailability handler, which inspects only the *first*
URL+method-matching record: that record gets
`responseBodyUnavailable = true` exactly when its own body is unknown
(later matching records are never touched, and nothing happens when the
first match already has a body); an empty body with status exactly 204 is
treated as available content and, with no matching record, is parked in
the Pending-Content Buffer like any other body. -/
theorem empty_body_routing
    (s : AnalyzerState) (ev : HarEvent)
    (pre post : List (String × RecordObj)) (k : String) (r : RecordObj) :
    (ev.body = some "" → ev.status ≠ 204 →
      captureResponseBody s ev = storeResponseBodyUnavailable s ev) ∧
    (s.requests = pre ++ (k, r) :: post →
      (∀ kv ∈ pre, urlMethodMatch ev kv.2 = false) →
      urlMethodMatch ev r = true →
      (r.responseBody = none →
        (storeResponseBodyUnavailable s ev).requests =
          pre ++ (k, { r with responseBodyUnavailable := some true })
            :: post) ∧
      (r.responseBody.isSome →
        (storeResponseBodyUnavailable s ev).requests = s.requests)) ∧
    ((∀ kv ∈ s.requests, urlMethodMatch ev kv.2 = false) →
      (storeResponseBodyUnavailable s ev).requests = s.requests) ∧
    (ev.body = some "" → ev.status = 204 →
      (s.requests.any (fun kv =>
        matchesRequest kv.2 (normalizeUrl ev.url)
          (toUpperStr (strOr (some ev.method) "GET"))
          (ev.time * 1000))) = false →
      mapGet (captureResponseBody s ev).pendingResponseBodies
          (normalizeUrl ev.url ++ "::" ++
            toUpperStr (strOr (some ev.method) "GET"))
        = some ⟨"", ev.mimeType, ev.capturedAt⟩) := by
  refine ⟨?_, ?_, ?_, ?_⟩
  · intro hb h204
    unfold captureResponseBody
    rw [hb]
    simp [h204]
  · intro hsplit hpre hr
    constructor
    · intro hnone
      show (updateFirst s.requests (urlMethodMatch ev) _) = _
      rw [hsplit, updateFirst_found pre post k r _ _ hpre hr]
      simp [hnone]
    · intro hsome
      show (updateFirst s.requests (urlMethodMatch ev) _) = _
      rw [hsplit, updateFirst_found pre post k r _ _ hpre hr]
      have hne : r.responseBody.isNone = false := by
        cases hsb : r.responseBody
        · rw [hsb] at hsome
          simp at hsome
        · rfl
      simp only [hne, Bool.false_eq_true, if_neg, not_false_iff]
  · intro hall
    show (updateFirst s.requests (urlMethodMatch ev) _) = _
    exact updateFirst_not_found _ _ _ hall
  · intro hb h204 hnomatch
    unfold captureResponseBody
    rw [hb]
    have hcond :
        ((("" : String).data.isEmpty) && !(decide (ev.status = 204))) =
          false := by
      simp [h204]
    simp only [ne_eq, decide_not, hcond, Bool.false_eq_true, if_neg,
      not_false_iff]
    rw [hnomatch]
    simp only [Bool.false_eq_true, if_neg, not_false_iff]
    exact mapGet_mapSet_self _ _ _

/-- C10 amended witness: instantiated at `stateZ` with the split
`[] ++ ("1", recBodied) :: [("2", recUnknown)]` and the empty-body
status-500 event. -/
theorem empty_body_routing_witness :
    (evEmptyZ.body = some "" ∧ evEmptyZ.status ≠ 204 ∧
     stateZ.requests = [] ++ ("1", recBodied) :: [("2", recUnknown)] ∧
     urlMethodMatch evEmptyZ recBodied = true ∧
     recBodied.responseBody.isSome = true) ∧
    (captureResponseBody stateZ evEmptyZ
        = storeResponseBodyUnavailable stateZ evEmptyZ) ∧
    ((storeResponseBodyUnavailable stateZ evEmptyZ).requests
        = stateZ.requests) := by
  have h := empty_body_routing stateZ evEmptyZ []
    [("2", recUnknown)] "1" recBodied
  refine ⟨⟨rfl, by decide, rfl, by decide, rfl⟩, ?_, ?_⟩
  · exact h.1 rfl (by decide)
  · exact (h.2.1 rfl (by intro kv hkv; cases hkv) (by decide)).2 rfl

/-! ## C6 — status-bucket filtering -/

theorem leadingDigit_of_three_digits (n : Nat) (h1 : 100 ≤ n)
    (h2 : n ≤ 999) : leadingDigit n = n / 100 := by
  rw [leadingDigit]
  simp only [show ¬(n < 10) by omega, dif_neg, not_false_iff]
  rw [leadingDigit]
  simp only [show ¬(n / 10 < 10) by omega, dif_neg, not_false_iff]
  rw [leadingDigit]
  simp only [show n / 10 / 10 < 10 by omega, dif_pos]
  omega

/-- A record carrying just a URL, a status code and a timestamp. -/
def statusRec (u : String) (c : Int) (t : Int) : RecordObj :=
  { url := some u, statusCode := some c, timestamp := some t }

/-- A store with status codes 200, 404, 500, 403 at timestamps 1..4. -/
def stateCodes : AnalyzerState :=
  { requests :=
      [("1", statusRec "https://a.com/1" 200 1),
       ("2", statusRec "https://a.com/2" 404 2),
       ("3", statusRec "https://a.com/3" 500 3),
       ("4", statusRec "https://a.com/4" 403 4)] }

/-- C6 counterexample: a record with status code 600 — leading digit 6 —
is kept by the `"5"` status bucket, so the bucket does not keep exactly
the records whose status code has leading digit 5. -/
theorem status_bucket_five_keeps_600 :
    matchesFilters rxFailAll { status := "5xx" }
        (statusRec "https://a.com/a" 600 1) = true ∧
    leadingDigit 600 = 6 := by
  constructor
  · decide
  · rw [leadingDigit_of_three_digits 600 (by omega) (by omega)]

/-- C6 amended: buckets `"2"`, `"3"`, `"4"` keep exactly the records with
status code in `[d00, (d+1)00)` — which, for ordinary three-digit codes
(100..599), is exactly "leading digit d" — while bucket `"5"` keeps every
record with status code at least 500 (with no upper bound, so codes of
600 and above are also kept); on the [200, 404, 500, 403] example, bucket
`"4"` yields exactly the 403 and 404 records, in descending timestamp
order. -/
theorem status_bucket_semantics (rx : RegexEngine) (req : RecordObj) :
    (matchesFilters rx { status := "2xx" } req = true ↔
      200 ≤ numOr req.statusCode 0 ∧ numOr req.statusCode 0 < 300) ∧
    (matchesFilters rx { status := "3xx" } req = true ↔
      300 ≤ numOr req.statusCode 0 ∧ numOr req.statusCode 0 < 400) ∧
    (matchesFilters rx { status := "4xx" } req = true ↔
      400 ≤ numOr req.statusCode 0 ∧ numOr req.statusCode 0 < 500) ∧
    (matchesFilters rx { status := "5xx" } req = true ↔
      500 ≤ numOr req.statusCode 0) ∧
    (∀ n d : Nat, 100 ≤ n → n ≤ 599 →
      (leadingDigit n = d ↔ (100 * d ≤ n ∧ n < 100 * d + 100))) ∧
    (getFilteredRequests rxFailAll stateCodes { status := "4xx" }).map
        (fun r => (r.statusCode, r.timestamp))
      = [(some 403, some 4), (some 404, some 2)] := by
  refine ⟨?_, ?_, ?_, ?_, ?_, ?_⟩
  · simp [matchesFilters]
  · simp [matchesFilters]
  · simp [matchesFilters]
  · simp [matchesFilters]
  · intro n d h1 h2
    rw [leadingDigit_of_three_digits n h1 (by omega)]
    omega
  · decide

/-- C6 amended witness: the bucket characterization instantiated at the
404-status record of the example store. -/
theorem status_bucket_semantics_witness :
    (matchesFilters rxFailAll { status := "2xx" }
        (statusRec "https://a.com/2" 404 2) = true ↔
      200 ≤ numOr (statusRec "https://a.com/2" 404 2).statusCode 0 ∧
        numOr (statusRec "https://a.com/2" 404 2).statusCode 0 < 300) ∧
    (matchesFilters rxFailAll { status := "3xx" }
        (statusRec "https://a.com/2" 404 2) = true ↔
      300 ≤ numOr (statusRec "https://a.com/2" 404 2).statusCode 0 ∧
        numOr (statusRec "https://a.com/2" 404 2).statusCode 0 < 400) ∧
    (matchesFilters rxFailAll { status := "4xx" }
        (statusRec "https://a.com/2" 404 2) = true ↔
      400 ≤ numOr (statusRec "https://a.com/2" 404 2).statusCode 0 ∧
        numOr (statusRec "https://a.com/2" 404 2).statusCode 0 < 500) ∧
    (matchesFilters rxFailAll { status := "5xx" }
        (statusRec "https://a.com/2" 404 2) = true ↔
      500 ≤ numOr (statusRec "https://a.com/2" 404 2).statusCode 0) ∧
    (∀ n d : Nat, 100 ≤ n → n ≤ 599 →
      (leadingDigit n = d ↔ (100 * d ≤ n ∧ n < 100 * d + 100))) ∧
    (getFilteredRequests rxFailAll stateCodes { status := "4xx" }).map
        (fun r => (r.statusCode, r.timestamp))
      = [(some 403, some 4), (some 404, some 2)] :=
  status_bucket_semantics rxFailAll (statusRec "https://a.com/2" 404 2)

/-! ## C7 — regex search with substring fallback -/

/-- A record whose response body contains the literal substring `[`. -/
def recBracket : RecordObj :=
  { url := some "https://a.com/q", responseBody := some "abc [ def" }

/-- C7: the free-text filter never fails: with a regex engine `rx`, a
query that compiles is applied to the synthesized searchable blob, and a
query that fails to compile falls back to case-insensitive literal
substring matching over the same blob; in particular the invalid pattern
`[` still matches a record whose blob contains the literal `[` under any
engine that rejects it. -/
theorem search_filter_regex_with_fallback
    (rx : RegexEngine) (q : String) (req : RecordObj)
    (hq : q.data.isEmpty = false) :
    (∀ t, rx q = some t →
      matchesFilters rx { search := q } req = t (searchableBlob req)) ∧
    (rx q = none →
      matchesFilters rx { search := q } req =
        containsStr (toLowerStr (searchableBlob req)) (toLowerStr q)) ∧
    (∀ rx' : RegexEngine, rx' "[" = none →
      matchesFilters rx' { search := "[" } recBracket = true) := by
  refine ⟨?_, ?_, ?_⟩
  · intro t ht
    simp [matchesFilters, hq, ht]
  · intro ht
    simp [matchesFilters, hq, ht]
  · intro rx' ht
    have : matchesFilters rx' { search := "[" } recBracket =
        containsStr (toLowerStr (searchableBlob recBracket))
          (toLowerStr "[") := by
      simp [matchesFilters, ht]
    rw [this]
    decide

/-- C7 witness: instantiated at the always-failing engine, the invalid
pattern `[` and the bracket-containing record. -/
theorem search_filter_regex_with_fallback_witness :
    ("[" : String).data.isEmpty = false ∧
    ((∀ t, rxFailAll "[" = some t →
      matchesFilters rxFailAll { search := "[" } recBracket =
        t (searchableBlob recBracket)) ∧
     (rxFailAll "[" = none →
      matchesFilters rxFailAll { search := "[" } recBracket =
        containsStr (toLowerStr (searchableBlob recBracket))
          (toLowerStr "[")) ∧
     (∀ rx' : RegexEngine, rx' "[" = none →
      matchesFilters rx' { search := "[" } recBracket = true)) :=
  ⟨rfl, search_filter_regex_with_fallback rxFailAll "[" recBracket rfl⟩

/-! ## C5 — totality and shape of `normalizeUrl` -/

/-- C5: `normalizeUrl` is total — on input the URL parser rejects it is
the identity — and on a parsed URL it returns origin + path + query with
the fragment dropped, where the path keeps the root slash, is unchanged
when it does not end in a slash, and loses exactly one trailing slash
otherwise; concretely, `https://a.com/x/` and `https://a.com/x` normalize
alike, the root URL keeps its slash, and the unparsable `"not a url"` is
returned unchanged. -/
theorem normalizeUrl_spec (url : String) (u : URLParts) (p : String) :
    (parseUrl url = none → normalizeUrl url = url) ∧
    (parseUrl url = some u → u.pathname = "/" →
      normalizeUrl url = u.origin ++ "/" ++ u.search) ∧
    (parseUrl url = some u → endsWithSlash u.pathname = false →
      normalizeUrl url = u.origin ++ u.pathname ++ u.search) ∧
    (parseUrl url = some u → u.pathname = p ++ "/" → p ≠ "" →
      normalizeUrl url = u.origin ++ p ++ u.search) ∧
    normalizeUrl "https://a.com/x/" = normalizeUrl "https://a.com/x" ∧
    normalizeUrl "https://a.com/" = "https://a.com/" ∧
    parseUrl "not a url" = none ∧
    normalizeUrl "not a url" = "not a url" := by
  refine ⟨?_, ?_, ?_, ?_, by decide, by decide, by decide, by decide⟩
  · intro h
    simp [normalizeUrl, h]
  · intro h h2
    simp [normalizeUrl, h, h2]
  · intro h hs
    simp [normalizeUrl, h, hs]
  · intro h hp hne
    have hdata : u.pathname.data = p.data ++ ['/'] := by rw [hp]; rfl
    have hslash : endsWithSlash u.pathname = true := by
      simp [endsWithSlash, hdata, List.getLast?_concat]
    have hroot : u.pathname ≠ "/" := by
      intro hr
      rw [hr] at hdata
      have hl := congrArg List.length hdata.symm
      simp at hl
      apply hne
      cases p with
      | mk d =>
        simp at hl
        simp [hl]
    have hdrop : dropLast1 u.pathname = p := by
      cases p with
      | mk d =>
        simp only [dropLast1, hdata]
        rw [List.dropLast_concat]
    simp [normalizeUrl, h, hroot, hslash, hdrop]

/-- C5 witness: instantiated at `https://b.com/y/z/`, which parses with
pathname `/y/z/` — the trailing slash of the path `/y/z` is stripped. -/
theorem normalizeUrl_spec_witness :
    parseUrl "https://b.com/y/z/" =
      some { origin := "https://b.com", pathname := "/y/z/",
             search := "", hash := "" } ∧
    ({ origin := "https://b.com", pathname := "/y/z/",
       search := "", hash := "" } : URLParts).pathname = "/y/z" ++ "/" ∧
    ("/y/z" : String) ≠ "" ∧
    normalizeUrl "https://b.com/y/z/" = "https://b.com" ++ "/y/z" ++ "" :=
  ⟨by decide, by decide, by decide,
   (normalizeUrl_spec "https://b.com/y/z/"
      { origin := "https://b.com", pathname := "/y/z/",
        search := "", hash := "" } "/y/z").2.2.2.1
     (by decide) (by decide) (by decide)⟩

/-! ## C4 — contentAvailable strictly before requestStarted -/

/-- C4: a content event that matches no current record is parked in the
Pending-Content Buffer under its `normalizedUrl::METHOD` key; a later
`requestStarted` for a fresh id with the same normalized URL and method
creates a record that immediately carries the parked body and mime type,
and the pending entry is removed — the content is neither lost nor left
to be attached a second time. -/
theorem content_parked_then_attached_on_request_start
    (s : AnalyzerState) (ev : HarEvent) (b : String)
    (rid u : String) (data : RecordObj) (now : Int)
    (hb : ev.body = some b)
    (hbne : b.data.isEmpty = false ∨ ev.status = 204)
    (hnomatch : (s.requests.any (fun kv =>
        matchesRequest kv.2 (normalizeUrl ev.url)
          (toUpperStr (strOr (some ev.method) "GET"))
          (ev.time * 1000))) = false)
    (hurl : data.url = some u)
    (hu : normalizeUrl u = normalizeUrl ev.url)
    (hm : toUpperStr (strOr data.method "GET")
        = toUpperStr (strOr (some ev.method) "GET"))
    (hid : mapGet s.requests rid = none) :
    mapGet (captureResponseBody s ev).pendingResponseBodies
        (normalizeUrl ev.url ++ "::" ++
          toUpperStr (strOr (some ev.method) "GET"))
      = some ⟨b, ev.mimeType, ev.capturedAt⟩ ∧
    (mapGet (addRequest (captureResponseBody s ev) rid data now).requests
        rid).map (fun r => (r.responseBody, r.responseBodyMimeType))
      = some (some b, some ev.mimeType) ∧
    mapGet (addRequest (captureResponseBody s ev) rid data
        now).pendingResponseBodies
        (normalizeUrl ev.url ++ "::" ++
          toUpperStr (strOr (some ev.method) "GET"))
      = none := by
  have hs1 : captureResponseBody s ev =
      { s with pendingResponseBodies := mapSet s.pendingResponseBodies (normalizeUrl ev.url ++ "::" ++ toUpperStr (strOr (some ev.method) "GET")) ⟨b, ev.mimeType, ev.capturedAt⟩ } := by
    unfold captureResponseBody
    rw [hb]
    have hcond : (b.data.isEmpty && !(decide (ev.status = 204))) = false := by
      rcases hbne with h | h <;> simp [h]
    simp only [ne_eq, decide_not, hcond, Bool.false_eq_true, if_neg,
      not_false_iff]
    rw [hnomatch]
    simp only [Bool.false_eq_true, if_neg, not_false_iff]
  rw [hs1]
  have hcp : consumePending (mapSet s.pendingResponseBodies (normalizeUrl ev.url ++ "::" ++ toUpperStr (strOr (some ev.method) "GET")) ⟨b, ev.mimeType, ev.capturedAt⟩) (some (normalizeUrl u)) (toUpperStr (strOr data.method "GET")) = (some ⟨b, ev.mimeType, ev.capturedAt⟩, mapDelete (mapSet s.pendingResponseBodies (normalizeUrl ev.url ++ "::" ++ toUpperStr (strOr (some ev.method) "GET")) ⟨b, ev.mimeType, ev.capturedAt⟩) (normalizeUrl ev.url ++ "::" ++ toUpperStr (strOr (some ev.method) "GET"))) := by
    unfold consumePending
    rw [hu, hm]
    simp only [jsStr, mapGet_mapSet_self]
  refine ⟨mapGet_mapSet_self _ _ _, ?_, ?_⟩
  · unfold addRequest
    simp only [hid, Option.isSome_none, Bool.false_eq_true, if_neg,
      not_false_iff]
    rw [hurl]
    simp only [Option.map_some']
    rw [hcp]
    simp only
    rw [mapGet_mapSet_self]
    rfl
  · unfold addRequest
    simp only [hid, Option.isSome_none, Bool.false_eq_true, if_neg,
      not_false_iff]
    rw [hurl]
    simp only [Option.map_some']
    rw [hcp]
    simp only
    rw [mapGet_mapDelete_self]

/-- A metadata `requestStarted` payload for `https://b.com/y`. -/
def dataY : RecordObj :=
  { requestId := some "7", url := some "https://b.com/y",
    method := some "GET", timeStamp := some 500 }

/-- C4 witness: the `evParkY` content event on the empty store, followed
by `requestStarted` for `https://b.com/y` with fresh id `"7"`. -/
theorem content_parked_then_attached_on_request_start_witness :
    (evParkY.body = some "data1" ∧
     ("data1" : String).data.isEmpty = false ∧
     (initState.requests.any (fun kv =>
        matchesRequest kv.2 (normalizeUrl evParkY.url)
          (toUpperStr (strOr (some evParkY.method) "GET"))
          (evParkY.time * 1000))) = false ∧
     dataY.url = some "https://b.com/y" ∧
     normalizeUrl "https://b.com/y" = normalizeUrl evParkY.url ∧
     mapGet initState.requests "7" = none) ∧
    (mapGet (captureResponseBody initState evParkY).pendingResponseBodies
        (normalizeUrl evParkY.url ++ "::" ++
          toUpperStr (strOr (some evParkY.method) "GET"))
      = some ⟨"data1", evParkY.mimeType, evParkY.capturedAt⟩ ∧
    (mapGet (addRequest (captureResponseBody initState evParkY) "7" dataY
        600).requests "7").map
        (fun r => (r.responseBody, r.responseBodyMimeType))
      = some (some "data1", some evParkY.mimeType) ∧
    mapGet (addRequest (captureResponseBody initState evParkY) "7" dataY
        600).pendingResponseBodies
        (normalizeUrl evParkY.url ++ "::" ++
          toUpperStr (strOr (some evParkY.method) "GET"))
      = none) :=
  ⟨⟨rfl, rfl, rfl, rfl, rfl, rfl⟩,
   content_parked_then_attached_on_request_start initState evParkY "data1"
     "7" "https://b.com/y" dataY 600 rfl (Or.inl rfl) rfl rfl rfl rfl rfl⟩

/-! ## C8 — response-body search and cyclic navigation -/

theorem leadsList_iff (p l : List Char) :
    leadsList p l = true ↔ l.take p.length = p ∧ p.length ≤ l.length := by
  induction p generalizing l with
  | nil => simp [leadsList]
  | cons a as ih =>
    cases l with
    | nil => simp [leadsList]
    | cons b bs =>
      simp only [leadsList, List.length_cons, List.take_succ_cons,
        List.cons.injEq, Bool.and_eq_true, decide_eq_true_eq,
        Nat.add_le_add_iff_right, ih]
      constructor
      · rintro ⟨h1, h2, h3⟩
        exact ⟨⟨h1.symm, h2⟩, h3⟩
      · rintro ⟨⟨h1, h2⟩, h3⟩
        exact ⟨h1.symm, h2, h3⟩

/-- Every span the exec-loop model reports starts at or after the scan
position. -/
theorem findOccAux_index_ge (term : List Char) :
    ∀ (fuel : Nat) (text : List Char) (pos : Nat) (m : MatchSpan),
      m ∈ findOccAux term fuel text pos → pos ≤ m.index := by
  intro fuel
  induction fuel with
  | zero => intro text pos m h; simp [findOccAux] at h
  | succ fuel ih =>
    intro text pos m h
    cases text with
    | nil => simp [findOccAux] at h
    | cons c rest =>
      by_cases hl : leadsList (lowerL term) (lowerL (c :: rest)) = true
      · simp only [findOccAux, hl, if_pos, List.mem_cons] at h
        rcases h with h | h
        · simp [h]
        · have := ih _ _ _ h
          omega
      · simp only [findOccAux, hl, if_neg, not_false_iff] at h
        have := ih _ _ _ h
        omega

/-- Every span the exec-loop model reports has the term's length and is a
genuine case-insensitive occurrence at its index. -/
theorem findOccAux_sound (term : List Char) :
    ∀ (fuel : Nat) (text : List Char) (pos : Nat) (m : MatchSpan),
      m ∈ findOccAux term fuel text pos →
      m.length = term.length ∧
      leadsList (lowerL term) (lowerL (text.drop (m.index - pos)))
        = true := by
  intro fuel
  induction fuel with
  | zero => intro text pos m h; simp [findOccAux] at h
  | succ fuel ih =>
    intro text pos m h
    cases text with
    | nil => simp [findOccAux] at h
    | cons c rest =>
      by_cases hl : leadsList (lowerL term) (lowerL (c :: rest)) = true
      · simp only [findOccAux, hl, if_pos, List.mem_cons] at h
        rcases h with h | h
        · subst h
          simpa using hl
        · have hge := findOccAux_index_ge term fuel _ _ _ h
          have hih := ih _ _ _ h
          refine ⟨hih.1, ?_⟩
          have h2 := hih.2
          rw [List.drop_drop] at h2
          have harith : term.length + (m.index - (pos + term.length))
              = m.index - pos := by omega
          rw [harith] at h2
          exact h2
      · simp only [findOccAux, hl, if_neg, not_false_iff] at h
        have hge := findOccAux_index_ge term fuel _ _ _ h
        have hih := ih _ _ _ h
        refine ⟨hih.1, ?_⟩
        have harith : m.index - pos = (m.index - (pos + 1)) + 1 := by omega
        rw [harith, List.drop_succ_cons]
        exact hih.2

/-- The exec-loop model reports spans in strictly increasing index
order. -/
theorem findOccAux_chain (term : List Char) (hterm : term ≠ []) :
    ∀ (fuel : Nat) (text : List Char) (pos : Nat),
      List.Chain' (fun a b => a.index < b.index)
        (findOccAux term fuel text pos) := by
  intro fuel
  induction fuel with
  | zero => intro text pos; simp [findOccAux]
  | succ fuel ih =>
    intro text pos
    cases text with
    | nil => simp [findOccAux]
    | cons c rest =>
      by_cases hl : leadsList (lowerL term) (lowerL (c :: rest)) = true
      · simp only [findOccAux, hl, if_pos]
        rw [List.chain'_cons']
        refine ⟨?_, ih _ _⟩
        intro b hb
        have hmem := List.mem_of_mem_head? hb
        have := findOccAux_index_ge term fuel _ _ _ hmem
        have hlen : 1 ≤ term.length := by
          cases term with
          | nil => exact absurd rfl hterm
          | cons x xs => simp
        simp only
        omega
      · simp only [findOccAux, hl, if_neg, not_false_iff]
        exact ih _ _

/-- `k` forward navigation steps advance the pointer by `k` modulo the
match count and never touch the match list. -/
theorem navigateToNextMatch_iterate (k : Nat) :
    ∀ (st : ResponseSearchState) (n : Nat), st.matchList.length = n →
      1 ≤ n → 0 ≤ st.currentMatchIndex → st.currentMatchIndex < (n : Int) →
      (navigateToNextMatch^[k] st).currentMatchIndex
          = (st.currentMatchIndex + k) % (n : Int) ∧
      (navigateToNextMatch^[k] st).matchList = st.matchList := by
  induction k with
  | zero =>
    intro st n hlen h1 h0 hlt
    simp only [Function.iterate_zero, id_eq, Nat.cast_zero, add_zero]
    exact ⟨(Int.emod_eq_of_lt h0 hlt).symm, trivial⟩
  | succ k ih =>
    intro st n hlen h1 h0 hlt
    rw [Function.iterate_succ_apply]
    have hne : st.matchList.length ≠ 0 := by omega
    have hnext : navigateToNextMatch st =
        { st with currentMatchIndex :=
            (st.currentMatchIndex + 1) % (st.matchList.length : Int) } := by
      unfold navigateToNextMatch
      simp [hne]
    have hpos : (0 : Int) < (n : Int) := by exact_mod_cast h1
    have h0' : 0 ≤ (st.currentMatchIndex + 1) % (n : Int) :=
      Int.emod_nonneg _ (by omega)
    have hlt' : (st.currentMatchIndex + 1) % (n : Int) < (n : Int) :=
      Int.emod_lt_of_pos _ hpos
    have := ih (navigateToNextMatch st) n (by rw [hnext, hlen])
      h1 (by rw [hnext]; simpa [hlen] using h0')
      (by rw [hnext]; simpa [hlen] using hlt')
    refine ⟨?_, by rw [this.2, hnext]⟩
    rw [this.1, hnext]
    simp only [hlen]
    rw [Int.emod_add_emod]
    congr 1
    push_cast
    ring

/-- C8: re-running the search replaces the match list with the
occurrences of the (non-blank) term in the stored original text and
resets the pointer to the first match, or to "no match" when there is
none; every reported span is a case-insensitive literal occurrence of the
term, the spans come in strictly increasing index order; and navigation
is cyclic — from the first match, `n` forward steps over an `n`-element
match list return to the first match, and one backward step wraps to the
last. -/
theorem response_search_spec
    (st : ResponseSearchState) (term : String)
    (st2 : ResponseSearchState) (n : Nat)
    (htrim : (trimStr term).data.isEmpty = false)
    (hlen : st2.matchList.length = n) (h1 : 1 ≤ n)
    (hc : st2.currentMatchIndex = 0) :
    ((performResponseSearch st term).searchTerm = term ∧
     (performResponseSearch st term).matchList
        = findMatchesCI term st.originalText ∧
     (findMatchesCI term st.originalText = [] →
       (performResponseSearch st term).currentMatchIndex = -1) ∧
     (findMatchesCI term st.originalText ≠ [] →
       (performResponseSearch st term).currentMatchIndex = 0)) ∧
    (∀ m ∈ findMatchesCI term st.originalText,
      m.length = term.data.length ∧
      ((lowerL st.originalText.data).drop m.index).take term.data.length
        = lowerL term.data) ∧
    List.Chain' (fun a b => a.index < b.index)
      (findMatchesCI term st.originalText) ∧
    ((navigateToNextMatch^[n] st2).currentMatchIndex = 0 ∧
     (navigateToPreviousMatch st2).currentMatchIndex = (n : Int) - 1) := by
  have hterm : term.data ≠ [] := by
    intro h
    rw [show term = ⟨term.data⟩ from rfl, h] at htrim
    simp [trimStr] at htrim
  have htermE : term.data.isEmpty = false := by
    cases hd : term.data
    · exact absurd hd hterm
    · rfl
  refine ⟨?_, ?_, ?_, ?_, ?_⟩
  · unfold performResponseSearch
    simp only [htrim, Bool.false_eq_true, if_neg, not_false_iff]
    by_cases hms : findMatchesCI term st.originalText = []
    · simp [hms]
    · have hlen' : 0 < (findMatchesCI term st.originalText).length :=
        List.length_pos.mpr hms
      simp [hms, hlen']
  · intro m hm
    unfold findMatchesCI at hm
    rw [htermE] at hm
    simp only [Bool.false_eq_true, if_neg, not_false_iff] at hm
    have hs := findOccAux_sound term.data _ _ _ _ hm
    refine ⟨hs.1, ?_⟩
    have h2 := hs.2
    rw [Nat.sub_zero] at h2
    rw [leadsList_iff] at h2
    have h3 := h2.1
    simp only [lowerL] at h3 ⊢
    rw [List.map_drop] at h3
    simpa using h3
  · unfold findMatchesCI
    rw [htermE]
    simp only [Bool.false_eq_true, if_neg, not_false_iff]
    exact findOccAux_chain term.data hterm _ _ _
  · have := navigateToNextMatch_iterate n st2 n hlen h1
      (by rw [hc]) (by rw [hc]; exact_mod_cast h1)
    rw [this.1, hc]
    simp [Int.emod_self]
  · unfold navigateToPreviousMatch
    have hne : st2.matchList.length ≠ 0 := by omega
    have hn0 : n ≠ 0 := by omega
    simp [hne, hc, hlen, hn0]

/-- The response-search state holding the example text with three
case-variant occurrences of `foo`. -/
def stateFoo : ResponseSearchState :=
  { originalText := "Foo bar foo baz FOO" }

/-- C8 witness: instantiated at the `foo` search over
`"Foo bar foo baz FOO"`, whose match list has three entries and whose
pointer sits on the first match after the search. -/
theorem response_search_spec_witness :
    ((trimStr "foo").data.isEmpty = false ∧
     (performResponseSearch stateFoo "foo").matchList.length = 3 ∧
     (1 : Nat) ≤ 3 ∧
     (performResponseSearch stateFoo "foo").currentMatchIndex = 0) ∧
    (((performResponseSearch stateFoo "foo").searchTerm = "foo" ∧
      (performResponseSearch stateFoo "foo").matchList
        = findMatchesCI "foo" stateFoo.originalText ∧
      (findMatchesCI "foo" stateFoo.originalText = [] →
        (performResponseSearch stateFoo "foo").currentMatchIndex = -1) ∧
      (findMatchesCI "foo" stateFoo.originalText ≠ [] →
        (performResponseSearch stateFoo "foo").currentMatchIndex = 0)) ∧
     (∀ m ∈ findMatchesCI "foo" stateFoo.originalText,
       m.length = ("foo" : String).data.length ∧
       ((lowerL stateFoo.originalText.data).drop m.index).take
           ("foo" : String).data.length
         = lowerL ("foo" : String).data) ∧
     List.Chain' (fun a b => a.index < b.index)
       (findMatchesCI "foo" stateFoo.originalText) ∧
     ((navigateToNextMatch^[3]
          (performResponseSearch stateFoo "foo")).currentMatchIndex = 0 ∧
      (navigateToPreviousMatch
          (performResponseSearch stateFoo "foo")).currentMatchIndex
        = (3 : Int) - 1)) :=
  ⟨⟨by decide, by decide, by decide, by decide⟩,
   response_search_spec stateFoo "foo" (performResponseSearch stateFoo "foo")
     3 (by decide) (by decide) (by decide) (by decide)⟩

end NetworkAnalyzer
